import Mathlib

/-!
Verification of the pane/primitive lifecycle coordinator, pane-index
allocator, chart event subscriptions, resize effect, tooltip state machine
and context hooks of the solid-lightweight-charts wrapper library.

The definitions below are a shallow embedding of the TypeScript source:
pure computations become Lean functions, reactive effects become explicit
trace-producing functions (one function for the effect body, one for its
registered cleanup), and the library boundary calls (attachPrimitive,
detachPrimitive, subscribe/unsubscribe, resize, callbacks) become events in
the produced traces.
-/

namespace SolidLWC

/-! ## Pane-scoped primitive lifecycle (src/helpers/utils.ts, Series effects) -/

/-- Events observable at the boundary between the coordinator and the
charting library or the user callbacks, for pane-scoped primitives:
`attach p` and `detach p` are calls of `pane.attachPrimitive(p)` and
`pane.detachPrimitive(p)`; `attachedCb l` and `detachedCb l` are invocations
of the user attached/detached callbacks with the full list `l`. -/
inductive PrimEvent (P : Type) where
  | attach (p : P)
  | detach (p : P)
  | attachedCb (l : List P)
  | detachedCb (l : List P)
deriving DecidableEq, Repr

/-- Shallow embedding of `detachPanePrimitives` (src/helpers/utils.ts lines
6-15): when the pane is undefined the function returns at once doing nothing,
otherwise it calls `pane.detachPrimitive` on every primitive of the list in
order. -/
def detachPanePrimitives {P π : Type} (primitives : List P) (pane : Option π) :
    List (PrimEvent P) :=
  match pane with
  | none => []
  | some _ => primitives.map PrimEvent.detach

/-- Shallow embedding of `attachPanePrimitives` (src/helpers/utils.ts lines
17-29): no-op on an undefined pane; otherwise it first runs
`detachPanePrimitives` on the same list against the same pane, then calls
`pane.attachPrimitive` on every primitive of the list in order. -/
def attachPanePrimitives {P π : Type} (primitives : List P) (pane : Option π) :
    List (PrimEvent P) :=
  match pane with
  | none => []
  | some x => detachPanePrimitives primitives (some x) ++ primitives.map PrimEvent.attach

/-- One run of the pane-primitive effect body of a Series
(src/TimeChart.tsx lines 300-308): `attachPanePrimitives(current, seriesPane)`
followed by the attach callback invoked with the full current list. The run
is the same on first activation as on any later one (it takes no history). -/
def panePrimitiveEffectRun {P π : Type} (current : List P) (pane : Option π) :
    List (PrimEvent P) :=
  attachPanePrimitives current pane ++ [PrimEvent.attachedCb current]

/-- The cleanup registered by the same effect (src/TimeChart.tsx lines
309-312): `detachPanePrimitives(current, seriesPane)` followed by the detach
callback invoked with the full current list. -/
def panePrimitiveEffectCleanup {P π : Type} (current : List P) (pane : Option π) :
    List (PrimEvent P) :=
  detachPanePrimitives current pane ++ [PrimEvent.detachedCb current]

/-- Reactive replacement of the scoped primitive list: the runtime runs the
pending cleanup of the previous effect run first, then the effect body with
the new list. -/
def panePrimitiveReplace {P π : Type} (old new : List P) (pane : Option π) :
    List (PrimEvent P) :=
  panePrimitiveEffectCleanup old pane ++ panePrimitiveEffectRun new pane

/-- The set of primitives attached to the pane after the library processes
one boundary event: `attachPrimitive` inserts, `detachPrimitive` removes (a
no-op when the primitive is not attached), callback invocations do not touch
the pane. -/
def stepAttached {P : Type} [DecidableEq P] (s : Finset P) : PrimEvent P → Finset P
  | PrimEvent.attach p => insert p s
  | PrimEvent.detach p => s.erase p
  | PrimEvent.attachedCb _ => s
  | PrimEvent.detachedCb _ => s

/-- Attached set after processing a whole trace. -/
def runAttached {P : Type} [DecidableEq P] (s : Finset P) (t : List (PrimEvent P)) :
    Finset P :=
  t.foldl stepAttached s

/-- Primitives that undergo an effective detach along a trace: a detach call
hitting a primitive that is attached at that moment. -/
def effectiveDetaches {P : Type} [DecidableEq P] (s : Finset P) :
    List (PrimEvent P) → Finset P
  | [] => ∅
  | e :: rest =>
      (match e with
       | PrimEvent.detach p => if p ∈ s then {p} else ∅
       | _ => ∅) ∪ effectiveDetaches (stepAttached s e) rest

/-- Primitives that undergo an effective attach along a trace: an attach call
hitting a primitive that is not attached at that moment. -/
def effectiveAttaches {P : Type} [DecidableEq P] (s : Finset P) :
    List (PrimEvent P) → Finset P
  | [] => ∅
  | e :: rest =>
      (match e with
       | PrimEvent.attach p => if p ∈ s then ∅ else {p}
       | _ => ∅) ∪ effectiveAttaches (stepAttached s e) rest

/-- Replays a trace and reports true when some primitive receives a second
attach call with no detach call of it in between (also counting an attach of
a primitive already attached at the start of the trace). -/
def doubleAttach {P : Type} [DecidableEq P] (s : Finset P) : List (PrimEvent P) → Bool
  | [] => false
  | PrimEvent.attach p :: rest => decide (p ∈ s) || doubleAttach (insert p s) rest
  | e :: rest => doubleAttach (stepAttached s e) rest

/-! ## Pane index allocator (src/TimeChart.tsx lines 128-129 and 209-211) -/

/-- Per chart-instance pane bookkeeping attached to the chart handle on mount:
`chart.__nextPaneIndex = 1` (index 0 is the default pane). -/
structure ChartPaneState where
  nextPaneIndex : Nat
deriving DecidableEq, Repr

/-- State of a freshly created chart (src/TimeChart.tsx line 128). -/
def initChartPaneState : ChartPaneState := ⟨1⟩

/-- Embeds `chart.__getNextPaneIndex = () => chart.__nextPaneIndex++`
(src/TimeChart.tsx line 129): returns the pre-increment counter value and the
incremented state. -/
def getNextPaneIndex (s : ChartPaneState) : Nat × ChartPaneState :=
  (s.nextPaneIndex, ⟨s.nextPaneIndex + 1⟩)

/-- Embeds the Pane index resolution
`_props.index ?? chart.__getNextPaneIndex()` (src/TimeChart.tsx lines
209-211): a provided index (including 0) is returned verbatim and the counter
is untouched; an omitted index consults the allocator. -/
def resolvePaneIdx (explicitIndex : Option Nat) (s : ChartPaneState) :
    Nat × ChartPaneState :=
  match explicitIndex with
  | some i => (i, s)
  | none => getNextPaneIndex s

/-- Indices assigned to a sequence of Pane declarations inside one chart.
Each declaration carries its optional explicit index and the number of extra
re-evaluations of its surrounding reactive scope; the index is computed by a
createMemo (src/TimeChart.tsx line 209), whose body runs once per declaration
while re-evaluations only read the cached value, so the read count never
touches the allocator state. -/
def assignPaneIndices (decls : List (Option Nat × Nat)) (s : ChartPaneState) :
    List Nat × ChartPaneState :=
  match decls with
  | [] => ([], s)
  | (d, _reEvals) :: rest =>
      let r := resolvePaneIdx d s
      let rs := assignPaneIndices rest r.2
      (r.1 :: rs.1, rs.2)

/-! ## Scope selection for pane primitives (src/TimeChart.tsx lines 300-304) -/

/-- Which context supplies the scoped primitive callbacks. -/
inductive CallbackSource where
  | chartCb
  | paneCb
deriving DecidableEq, Repr

/-- Embeds the scoped primitive list selection of the Series pane-primitive
effect: when the resolved pane index is 0 the list comes from the chart
context, otherwise from the enclosing Pane context. -/
def scopedPanePrimitives {P : Type} (paneIdx : Nat)
    (chartPrimitives panePrimitives : List P) : List P :=
  if paneIdx = 0 then chartPrimitives else panePrimitives

/-- Embeds the scoped attach/detach callback selection of the same effect:
chart callbacks for pane index 0, pane callbacks otherwise. -/
def scopedCallbackSource (paneIdx : Nat) : CallbackSource :=
  if paneIdx = 0 then CallbackSource.chartCb else CallbackSource.paneCb

/-- Embeds the series pane lookup `chart().panes()[paneIdx()]`
(src/TimeChart.tsx line 289): an out-of-range index yields undefined. -/
def seriesPaneLookup {π : Type} (panes : List π) (paneIdx : Nat) : Option π :=
  panes.get? paneIdx

/-! ## Chart event subscriptions (src/helpers/utils.ts lines 40-67) -/

/-- The three chart event sources wired through createSubscriptionEffect
(src/TimeChart.tsx lines 142-148). -/
inductive EventKind where
  | click
  | dblClick
  | crosshairMove
deriving DecidableEq, Repr

/-- Boundary events of createSubscriptionEffect: a subscribe or unsubscribe
call of one handler against one chart event source. -/
inductive SubEvent (H : Type) where
  | subscribeH (k : EventKind) (h : H)
  | unsubscribeH (k : EventKind) (h : H)
deriving DecidableEq, Repr

/-- The onClick / onDblClick / onCrosshairMove prop value (src/types.ts lines
98-110): absent, a single handler, or a list of handlers. -/
def HandlerInput (H : Type) : Type := Option (H ⊕ List H)

/-- All handlers denoted by a handler prop value. -/
def handlerSet {H : Type} : HandlerInput H → List H
  | none => []
  | some (Sum.inl h) => [h]
  | some (Sum.inr hs) => hs

/-- Subscribe phase of the effect body (src/helpers/utils.ts lines 46-55):
return at once when the prop is absent, subscribe each handler of a list, or
subscribe the single handler. -/
def subscribePhase {H : Type} (k : EventKind) : HandlerInput H → List (SubEvent H)
  | none => []
  | some (Sum.inl h) => [SubEvent.subscribeH k h]
  | some (Sum.inr hs) => hs.map (SubEvent.subscribeH k)

/-- Cleanup registered by the effect body (src/helpers/utils.ts lines 57-65):
unsubscribe each handler of a list, or the single handler; no cleanup is
registered when the prop was absent. -/
def unsubscribePhase {H : Type} (k : EventKind) : HandlerInput H → List (SubEvent H)
  | none => []
  | some (Sum.inl h) => [SubEvent.unsubscribeH k h]
  | some (Sum.inr hs) => hs.map (SubEvent.unsubscribeH k)

/-- Observable subscription events of one event kind over a whole chart
lifetime. The eventHandlers argument of createSubscriptionEffect is a plain
value (src/helpers/utils.ts line 43), read once from the props at the call
site inside onMount (src/TimeChart.tsx lines 142-148); the effect body reads
only that captured value, so the effect has no reactive dependency and runs
exactly once, and its cleanup runs at chart teardown. Later values taken by
the handler prop (laterValues) therefore never reach the effect. -/
def subscriptionLifetime {H : Type} (k : EventKind) (mountValue : HandlerInput H)
    (laterValues : List (HandlerInput H)) : List (SubEvent H) :=
  subscribePhase k mountValue ++ unsubscribePhase k mountValue

/-- Helper for the lifecycle the claim describes: after the mount
subscription, every change of the handler set unsubscribes the previous set
and subscribes the new one, and teardown unsubscribes the last set. -/
def claimResubscribeTail {H : Type} (k : EventKind) (prev : HandlerInput H) :
    List (HandlerInput H) → List (SubEvent H)
  | [] => unsubscribePhase k prev
  | v :: rest => unsubscribePhase k prev ++ subscribePhase k v ++ claimResubscribeTail k v rest

/-- Subscription lifecycle exactly as the claim words it, for comparison with
the code's subscriptionLifetime: subscribe the mount set, then re-subscribe
at every change, then unsubscribe at teardown. -/
def claimSubscriptionLifetime {H : Type} (k : EventKind) (mountValue : HandlerInput H)
    (laterValues : List (HandlerInput H)) : List (SubEvent H) :=
  subscribePhase k mountValue ++ claimResubscribeTail k mountValue laterValues

/-! ## Series data effect (src/TimeChart.tsx lines 291-298) -/

/-- Boundary events of the Series data effect: the series dataset
replacement, the data-set callback, the marker application
(createSeriesMarkers) and the markers-set callback. -/
inductive DataEvent (D M : Type) where
  | setData (d : D)
  | onSetData (d : D)
  | setMarkers (m : M)
  | onSetMarkers (m : M)
deriving DecidableEq, Repr

/-- One run of the Series data effect (src/TimeChart.tsx lines 291-298):
`series.setData(local.data)`, then the onSetData callback with the same data,
then `local.markers(local.data)` computed from that same data, applied via
createSeriesMarkers, then the onSetMarkers callback. -/
def dataEffectRun {D M : Type} (markers : D → M) (d : D) : List (DataEvent D M) :=
  [DataEvent.setData d, DataEvent.onSetData d,
   DataEvent.setMarkers (markers d), DataEvent.onSetMarkers (markers d)]

/-! ## Resize effect (src/TimeChart.tsx lines 135-140) -/

/-- Boundary events of the resize effect: the chart resize call and the
onResize callback. -/
inductive ResizeEvent where
  | resize (w h : Nat) (force : Bool)
  | onResize (w h : Nat)
deriving DecidableEq, Repr

/-- One run of the TimeChart resize effect (src/TimeChart.tsx lines 135-140):
with autoSize enabled the body returns before touching the resize inputs;
otherwise it calls `chart.resize(width, height, forceRepaintOnResize)` and
then the onResize callback with the width and height. -/
def resizeEffectRun (autoSize : Bool) (w h : Nat) (force : Bool) : List ResizeEvent :=
  if autoSize then []
  else [ResizeEvent.resize w h force, ResizeEvent.onResize w h]

/-! ## Tooltip state machine (src/helpers/createTooltip.tsx lines 56-96) -/

/-- Cursor point of a crosshair event, in container coordinates. -/
structure CPoint where
  x : Int
  y : Int
deriving DecidableEq, Repr

/-- Crosshair event parameter as consumed by the tooltip: optional point,
optional horizontal-axis value (modelled as an integer, the numeric
horizontal scale instantiation), and the per-series data snapshot held
abstract. -/
structure CrosshairParam (S : Type) where
  point : Option CPoint
  time : Option Int
  seriesData : S
deriving DecidableEq

/-- Tooltip render props signal contents (src/helpers/createTooltip.tsx lines
59-64): chart handle, per-series data snapshot, cursor point and axis value.
The point and time fields store the runtime values of param.point and
param.time (a TypeScript non-null assertion has no runtime effect). -/
structure TooltipSnapshot (C S : Type) where
  chart : C
  seriesData : S
  point : Option CPoint
  time : Option Int
deriving DecidableEq

/-- Tooltip overlay state: the visible signal plus the tooltipProps signal. -/
structure TooltipOverlayState (C S : Type) where
  visible : Bool
  props : TooltipSnapshot C S
deriving DecidableEq

/-- Initial tooltip state (src/helpers/createTooltip.tsx lines 56-64): hidden,
with a dummy snapshot holding point (-1,-1) and an undefined axis value. -/
def initTooltipState {C S : Type} (chart : C) (emptyData : S) : TooltipOverlayState C S :=
  ⟨false, ⟨chart, emptyData, some ⟨-1, -1⟩, none⟩⟩

/-- Tooltip callback invocations. -/
inductive TooltipCb where
  | onHide
  | onShow
deriving DecidableEq, Repr

/-- JavaScript truthiness test `!param.time` on a numeric axis value
(src/helpers/createTooltip.tsx line 72): undefined is falsy, and so is the
number 0. -/
def timeFalsy : Option Int → Bool
  | none => true
  | some t => t == 0

/-- The out-of-bounds test of onCrosshairMove (src/helpers/createTooltip.tsx
lines 69-75): no point, falsy axis value, or a point coordinate outside
[0, clientWidth] x [0, clientHeight]. -/
def outOfBounds {S : Type} (param : CrosshairParam S) (clientWidth clientHeight : Int) :
    Bool :=
  param.point.isNone || timeFalsy param.time ||
    (match param.point with
     | none => false
     | some pt =>
         decide (pt.x < 0) || decide (pt.y < 0) ||
         decide (pt.x > clientWidth) || decide (pt.y > clientHeight))

/-- Embeds onCrosshairMove (src/helpers/createTooltip.tsx lines 66-96): an
out-of-bounds event sets visible to false, invokes onHide once and returns
without touching the tooltip snapshot; otherwise visible becomes true and the
snapshot is replaced wholesale (all four fields together, inside one batch)
before onShow is invoked. -/
def onCrosshairMove {C S : Type} (chart : C) (param : CrosshairParam S)
    (clientWidth clientHeight : Int) (st : TooltipOverlayState C S) :
    TooltipOverlayState C S × List TooltipCb :=
  if outOfBounds param clientWidth clientHeight then
    ({ st with visible := false }, [TooltipCb.onHide])
  else
    (⟨true, ⟨chart, param.seriesData, param.point, param.time⟩⟩, [TooltipCb.onShow])

/-- Hide condition exactly as the claim words it, for comparison with the
code's outOfBounds test: point undefined, or axis value undefined, or point
outside [0, clientWidth] x [0, clientHeight]. -/
def claimHideCondition {S : Type} (param : CrosshairParam S)
    (clientWidth clientHeight : Int) : Bool :=
  param.point.isNone || param.time.isNone ||
    (match param.point with
     | none => false
     | some pt =>
         decide (pt.x < 0) || decide (pt.y < 0) ||
         decide (pt.x > clientWidth) || decide (pt.y > clientHeight))

/-! ## Chart-family context hooks (src/TimeChart.tsx lines 43-51 and the
PriceChart / YieldCurveChart counterparts) -/

/-- The three chart families of the library, distinguished by horizontal-axis
domain. -/
inductive ChartFamily where
  | timeChart
  | priceChart
  | yieldCurveChart
deriving DecidableEq, Repr

/-- Name of a chart family as it appears in its error message. -/
def familyName : ChartFamily → String
  | ChartFamily.timeChart => "TimeChart"
  | ChartFamily.priceChart => "PriceChart"
  | ChartFamily.yieldCurveChart => "YieldCurveChart"

/-- The message thrown by useTimeChart (src/TimeChart.tsx line 47),
usePriceChart and useYieldCurveChart when no enclosing chart context exists. -/
def noParentChartMsg (f : ChartFamily) : String :=
  "[solid-lightweight-charts] No parent " ++ familyName f ++ " component found!"

/-- Embeds the context hooks useTimeChart / usePriceChart /
useYieldCurveChart: a missing context throws synchronously with the
family-specific message, otherwise the context is returned. -/
def useChartContext {Ctx : Type} (f : ChartFamily) (ctx : Option Ctx) :
    Except String Ctx :=
  match ctx with
  | none => Except.error (noParentChartMsg f)
  | some c => Except.ok c

/-- The child component kinds that require an enclosing chart of their
family. -/
inductive ChildComponent where
  | pane
  | series
  | customSeries
  | tooltip
deriving DecidableEq, Repr

/-- Activation prologue shared by Pane, Series, CustomSeries and Tooltip of
every chart family: each calls its family hook first; an error propagates
uncaught (no try/catch exists in the library), and the rest of the activation
body runs only on success. -/
def activateChild {Ctx A : Type} (f : ChartFamily) (comp : ChildComponent)
    (ctx : Option Ctx) (body : ChildComponent → Ctx → A) : Except String A :=
  (useChartContext f ctx).map (body comp)

/-! ## Lemmas about the attached-set semantics of primitive traces -/

theorem runAttached_append {P : Type} [DecidableEq P] (s : Finset P)
    (t u : List (PrimEvent P)) :
    runAttached s (t ++ u) = runAttached (runAttached s t) u :=
  List.foldl_append _ _ _ _

theorem mem_runAttached_detachList {P : Type} [DecidableEq P] (s : Finset P)
    (l : List P) (x : P) :
    x ∈ runAttached s (l.map PrimEvent.detach) ↔ x ∈ s ∧ x ∉ l := by
  induction l generalizing s with
  | nil => simp [runAttached]
  | cons p rest ih =>
      have h1 : runAttached s ((p :: rest).map PrimEvent.detach)
          = runAttached (s.erase p) (rest.map PrimEvent.detach) := rfl
      rw [h1, ih]
      simp only [Finset.mem_erase, List.mem_cons]
      tauto

theorem mem_runAttached_attachList {P : Type} [DecidableEq P] (s : Finset P)
    (l : List P) (x : P) :
    x ∈ runAttached s (l.map PrimEvent.attach) ↔ x ∈ s ∨ x ∈ l := by
  induction l generalizing s with
  | nil => simp [runAttached]
  | cons p rest ih =>
      have h1 : runAttached s ((p :: rest).map PrimEvent.attach)
          = runAttached (insert p s) (rest.map PrimEvent.attach) := rfl
      rw [h1, ih]
      simp only [Finset.mem_insert, List.mem_cons]
      tauto

theorem runAttached_attachedCb {P : Type} [DecidableEq P] (s : Finset P) (l : List P)
    (t : List (PrimEvent P)) :
    runAttached s (PrimEvent.attachedCb l :: t) = runAttached s t := rfl

theorem runAttached_detachedCb {P : Type} [DecidableEq P] (s : Finset P) (l : List P)
    (t : List (PrimEvent P)) :
    runAttached s (PrimEvent.detachedCb l :: t) = runAttached s t := rfl

theorem runAttached_cons {P : Type} [DecidableEq P] (s : Finset P) (e : PrimEvent P)
    (t : List (PrimEvent P)) :
    runAttached s (e :: t) = runAttached (stepAttached s e) t := rfl

theorem effectiveDetaches_cons_attach {P : Type} [DecidableEq P] (s : Finset P) (p : P)
    (t : List (PrimEvent P)) :
    effectiveDetaches s (PrimEvent.attach p :: t) = effectiveDetaches (insert p s) t := by
  have h1 : effectiveDetaches s (PrimEvent.attach p :: t)
      = ∅ ∪ effectiveDetaches (insert p s) t := rfl
  rw [h1, Finset.empty_union]

theorem effectiveDetaches_cons_detach {P : Type} [DecidableEq P] (s : Finset P) (p : P)
    (t : List (PrimEvent P)) :
    effectiveDetaches s (PrimEvent.detach p :: t)
      = (if p ∈ s then {p} else ∅) ∪ effectiveDetaches (s.erase p) t := rfl

theorem effectiveDetaches_cons_attachedCb {P : Type} [DecidableEq P] (s : Finset P)
    (l : List P) (t : List (PrimEvent P)) :
    effectiveDetaches s (PrimEvent.attachedCb l :: t) = effectiveDetaches s t := by
  have h1 : effectiveDetaches s (PrimEvent.attachedCb l :: t)
      = ∅ ∪ effectiveDetaches s t := rfl
  rw [h1, Finset.empty_union]

theorem effectiveDetaches_cons_detachedCb {P : Type} [DecidableEq P] (s : Finset P)
    (l : List P) (t : List (PrimEvent P)) :
    effectiveDetaches s (PrimEvent.detachedCb l :: t) = effectiveDetaches s t := by
  have h1 : effectiveDetaches s (PrimEvent.detachedCb l :: t)
      = ∅ ∪ effectiveDetaches s t := rfl
  rw [h1, Finset.empty_union]

theorem effectiveAttaches_cons_attach {P : Type} [DecidableEq P] (s : Finset P) (p : P)
    (t : List (PrimEvent P)) :
    effectiveAttaches s (PrimEvent.attach p :: t)
      = (if p ∈ s then ∅ else {p}) ∪ effectiveAttaches (insert p s) t := rfl

theorem effectiveAttaches_cons_detach {P : Type} [DecidableEq P] (s : Finset P) (p : P)
    (t : List (PrimEvent P)) :
    effectiveAttaches s (PrimEvent.detach p :: t) = effectiveAttaches (s.erase p) t := by
  have h1 : effectiveAttaches s (PrimEvent.detach p :: t)
      = ∅ ∪ effectiveAttaches (s.erase p) t := rfl
  rw [h1, Finset.empty_union]

theorem effectiveAttaches_cons_attachedCb {P : Type} [DecidableEq P] (s : Finset P)
    (l : List P) (t : List (PrimEvent P)) :
    effectiveAttaches s (PrimEvent.attachedCb l :: t) = effectiveAttaches s t := by
  have h1 : effectiveAttaches s (PrimEvent.attachedCb l :: t)
      = ∅ ∪ effectiveAttaches s t := rfl
  rw [h1, Finset.empty_union]

theorem effectiveAttaches_cons_detachedCb {P : Type} [DecidableEq P] (s : Finset P)
    (l : List P) (t : List (PrimEvent P)) :
    effectiveAttaches s (PrimEvent.detachedCb l :: t) = effectiveAttaches s t := by
  have h1 : effectiveAttaches s (PrimEvent.detachedCb l :: t)
      = ∅ ∪ effectiveAttaches s t := rfl
  rw [h1, Finset.empty_union]

theorem doubleAttach_cons_attach {P : Type} [DecidableEq P] (s : Finset P) (p : P)
    (t : List (PrimEvent P)) :
    doubleAttach s (PrimEvent.attach p :: t)
      = (decide (p ∈ s) || doubleAttach (insert p s) t) := rfl

theorem doubleAttach_cons_detach {P : Type} [DecidableEq P] (s : Finset P) (p : P)
    (t : List (PrimEvent P)) :
    doubleAttach s (PrimEvent.detach p :: t) = doubleAttach (s.erase p) t := rfl

theorem doubleAttach_cons_attachedCb {P : Type} [DecidableEq P] (s : Finset P)
    (l : List P) (t : List (PrimEvent P)) :
    doubleAttach s (PrimEvent.attachedCb l :: t) = doubleAttach s t := rfl

theorem doubleAttach_cons_detachedCb {P : Type} [DecidableEq P] (s : Finset P)
    (l : List P) (t : List (PrimEvent P)) :
    doubleAttach s (PrimEvent.detachedCb l :: t) = doubleAttach s t := rfl

theorem effectiveDetaches_append {P : Type} [DecidableEq P] (s : Finset P)
    (t u : List (PrimEvent P)) :
    effectiveDetaches s (t ++ u)
      = effectiveDetaches s t ∪ effectiveDetaches (runAttached s t) u := by
  induction t generalizing s with
  | nil => simp [effectiveDetaches, runAttached]
  | cons e rest ih =>
      rw [List.cons_append, runAttached_cons]
      cases e with
      | attach p =>
          rw [effectiveDetaches_cons_attach, effectiveDetaches_cons_attach, ih]
          rfl
      | detach p =>
          rw [effectiveDetaches_cons_detach, effectiveDetaches_cons_detach, ih,
            Finset.union_assoc]
          rfl
      | attachedCb l =>
          rw [effectiveDetaches_cons_attachedCb, effectiveDetaches_cons_attachedCb, ih]
          rfl
      | detachedCb l =>
          rw [effectiveDetaches_cons_detachedCb, effectiveDetaches_cons_detachedCb, ih]
          rfl

theorem effectiveAttaches_append {P : Type} [DecidableEq P] (s : Finset P)
    (t u : List (PrimEvent P)) :
    effectiveAttaches s (t ++ u)
      = effectiveAttaches s t ∪ effectiveAttaches (runAttached s t) u := by
  induction t generalizing s with
  | nil => simp [effectiveAttaches, runAttached]
  | cons e rest ih =>
      rw [List.cons_append, runAttached_cons]
      cases e with
      | attach p =>
          rw [effectiveAttaches_cons_attach, effectiveAttaches_cons_attach, ih,
            Finset.union_assoc]
          rfl
      | detach p =>
          rw [effectiveAttaches_cons_detach, effectiveAttaches_cons_detach, ih]
          rfl
      | attachedCb l =>
          rw [effectiveAttaches_cons_attachedCb, effectiveAttaches_cons_attachedCb, ih]
          rfl
      | detachedCb l =>
          rw [effectiveAttaches_cons_detachedCb, effectiveAttaches_cons_detachedCb, ih]
          rfl

theorem mem_effectiveDetaches_detachList {P : Type} [DecidableEq P] (s : Finset P)
    (l : List P) (x : P) :
    x ∈ effectiveDetaches s (l.map PrimEvent.detach) ↔ x ∈ s ∧ x ∈ l := by
  induction l generalizing s with
  | nil => simp [effectiveDetaches]
  | cons p rest ih =>
      rw [List.map_cons, effectiveDetaches_cons_detach, Finset.mem_union, ih]
      constructor
      · rintro (hx | ⟨hs, hr⟩)
        · by_cases hp : p ∈ s
          · rw [if_pos hp, Finset.mem_singleton] at hx
            exact ⟨hx ▸ hp, by simp [hx]⟩
          · rw [if_neg hp] at hx
            exact absurd hx (Finset.not_mem_empty x)
        · exact ⟨(Finset.mem_erase.mp hs).2, List.mem_cons_of_mem _ hr⟩
      · rintro ⟨hs, hx⟩
        rcases List.mem_cons.mp hx with hxp | hr
        · subst hxp
          left
          rw [if_pos hs]
          exact Finset.mem_singleton_self x
        · by_cases hxp : x = p
          · subst hxp
            left
            rw [if_pos hs]
            exact Finset.mem_singleton_self x
          · right
            exact ⟨Finset.mem_erase.mpr ⟨hxp, hs⟩, hr⟩

theorem effectiveDetaches_attachList {P : Type} [DecidableEq P] (s : Finset P)
    (l : List P) :
    effectiveDetaches s (l.map PrimEvent.attach) = ∅ := by
  induction l generalizing s with
  | nil => rfl
  | cons p rest ih =>
      rw [List.map_cons, effectiveDetaches_cons_attach, ih]

theorem effectiveAttaches_detachList {P : Type} [DecidableEq P] (s : Finset P)
    (l : List P) :
    effectiveAttaches s (l.map PrimEvent.detach) = ∅ := by
  induction l generalizing s with
  | nil => rfl
  | cons p rest ih =>
      rw [List.map_cons, effectiveAttaches_cons_detach, ih]

theorem mem_effectiveAttaches_attachList {P : Type} [DecidableEq P] (s : Finset P)
    (l : List P) (x : P) :
    x ∈ effectiveAttaches s (l.map PrimEvent.attach) ↔ x ∉ s ∧ x ∈ l := by
  induction l generalizing s with
  | nil => simp [effectiveAttaches]
  | cons p rest ih =>
      rw [List.map_cons, effectiveAttaches_cons_attach, Finset.mem_union, ih]
      constructor
      · rintro (hx | ⟨hs, hr⟩)
        · by_cases hp : p ∈ s
          · rw [if_pos hp] at hx
            exact absurd hx (Finset.not_mem_empty x)
          · rw [if_neg hp, Finset.mem_singleton] at hx
            exact ⟨hx ▸ hp, by simp [hx]⟩
        · rw [Finset.mem_insert] at hs
          push_neg at hs
          exact ⟨hs.2, List.mem_cons_of_mem _ hr⟩
      · rintro ⟨hs, hx⟩
        rcases List.mem_cons.mp hx with hxp | hr
        · subst hxp
          left
          rw [if_neg hs]
          exact Finset.mem_singleton_self x
        · by_cases hxp : x = p
          · subst hxp
            left
            rw [if_neg hs]
            exact Finset.mem_singleton_self x
          · right
            refine ⟨?_, hr⟩
            rw [Finset.mem_insert]
            push_neg
            exact ⟨hxp, hs⟩

theorem doubleAttach_append {P : Type} [DecidableEq P] (s : Finset P)
    (t u : List (PrimEvent P)) :
    doubleAttach s (t ++ u)
      = (doubleAttach s t || doubleAttach (runAttached s t) u) := by
  induction t generalizing s with
  | nil => simp [doubleAttach, runAttached]
  | cons e rest ih =>
      rw [List.cons_append, runAttached_cons]
      cases e with
      | attach p =>
          rw [doubleAttach_cons_attach, doubleAttach_cons_attach, ih, Bool.or_assoc]
          rfl
      | detach p =>
          rw [doubleAttach_cons_detach, doubleAttach_cons_detach, ih]
          rfl
      | attachedCb l =>
          rw [doubleAttach_cons_attachedCb, doubleAttach_cons_attachedCb, ih]
          rfl
      | detachedCb l =>
          rw [doubleAttach_cons_detachedCb, doubleAttach_cons_detachedCb, ih]
          rfl

theorem doubleAttach_detachList {P : Type} [DecidableEq P] (s : Finset P) (l : List P) :
    doubleAttach s (l.map PrimEvent.detach) = false := by
  induction l generalizing s with
  | nil => rfl
  | cons p rest ih => exact ih _

theorem doubleAttach_attachList {P : Type} [DecidableEq P] (l : List P) :
    ∀ s : Finset P, l.Nodup → (∀ x ∈ l, x ∉ s) →
      doubleAttach s (l.map PrimEvent.attach) = false := by
  induction l with
  | nil =>
      intro s _ _
      rfl
  | cons p rest ih =>
      intro s hl hdisj
      have hps : p ∉ s := hdisj p (List.mem_cons_self p rest)
      rw [List.map_cons, doubleAttach_cons_attach, decide_eq_false hps, Bool.false_or]
      refine ih (insert p s) (List.Nodup.of_cons hl) ?_
      intro x hx
      rw [Finset.mem_insert]
      rintro (hxp | hxs)
      · exact (List.nodup_cons.mp hl).1 (hxp ▸ hx)
      · exact hdisj x (List.mem_cons_of_mem p hx) hxs

/-- Exact-replacement property of one pane-primitive list replacement,
starting from a pane where exactly the old list is attached: the final
attached set is exactly the new list, the effectively detached primitives are
exactly the old list, the effectively attached primitives are exactly the new
list, and no primitive receives two attach calls without a detach call of it
in between. -/
theorem panePrimitiveReplace_exact {P π : Type} [DecidableEq P]
    (old new : List P) (u : π) (hnew : new.Nodup) :
    runAttached old.toFinset (panePrimitiveReplace old new (some u)) = new.toFinset ∧
    effectiveDetaches old.toFinset (panePrimitiveReplace old new (some u)) = old.toFinset ∧
    effectiveAttaches old.toFinset (panePrimitiveReplace old new (some u)) = new.toFinset ∧
    doubleAttach old.toFinset (panePrimitiveReplace old new (some u)) = false := by
  have htrace : panePrimitiveReplace old new (some u)
      = old.map PrimEvent.detach ++
          (PrimEvent.detachedCb old ::
            (new.map PrimEvent.detach ++
              (new.map PrimEvent.attach ++ [PrimEvent.attachedCb new]))) := by
    simp [panePrimitiveReplace, panePrimitiveEffectCleanup, panePrimitiveEffectRun,
      attachPanePrimitives, detachPanePrimitives]
  have hrun_old : runAttached old.toFinset (old.map PrimEvent.detach) = ∅ := by
    ext x
    simp [mem_runAttached_detachList]
  have hrun_newd : runAttached (∅ : Finset P) (new.map PrimEvent.detach) = ∅ := by
    ext x
    simp [mem_runAttached_detachList]
  have hrun_newa : runAttached (∅ : Finset P) (new.map PrimEvent.attach) = new.toFinset := by
    ext x
    simp [mem_runAttached_attachList]
  refine ⟨?_, ?_, ?_, ?_⟩
  · rw [htrace, runAttached_append, hrun_old, runAttached_detachedCb,
      runAttached_append, hrun_newd, runAttached_append, hrun_newa]
    rfl
  · rw [htrace, effectiveDetaches_append, hrun_old, effectiveDetaches_cons_detachedCb,
      effectiveDetaches_append, hrun_newd, effectiveDetaches_append, hrun_newa,
      effectiveDetaches_attachList]
    have h2 : effectiveDetaches (∅ : Finset P) (new.map PrimEvent.detach) = ∅ := by
      ext x
      simp [mem_effectiveDetaches_detachList]
    have h3 : effectiveDetaches old.toFinset (old.map PrimEvent.detach) = old.toFinset := by
      ext x
      simp [mem_effectiveDetaches_detachList]
    have h4 : effectiveDetaches new.toFinset [PrimEvent.attachedCb new] = ∅ := rfl
    rw [h2, h3, h4]
    simp
  · rw [htrace, effectiveAttaches_append, hrun_old, effectiveAttaches_cons_detachedCb,
      effectiveAttaches_append, hrun_newd, effectiveAttaches_append, hrun_newa]
    have h2 : effectiveAttaches (∅ : Finset P) (new.map PrimEvent.attach) = new.toFinset := by
      ext x
      simp [mem_effectiveAttaches_attachList]
    have h3 : effectiveAttaches old.toFinset (old.map PrimEvent.detach) = ∅ :=
      effectiveAttaches_detachList _ _
    have h5 : effectiveAttaches (∅ : Finset P) (new.map PrimEvent.detach) = ∅ :=
      effectiveAttaches_detachList _ _
    have h4 : effectiveAttaches new.toFinset [PrimEvent.attachedCb new] = ∅ := rfl
    rw [h2, h3, h5, h4]
    simp
  · rw [htrace, doubleAttach_append, hrun_old, doubleAttach_detachList, Bool.false_or,
      doubleAttach_cons_detachedCb, doubleAttach_append, hrun_newd,
      doubleAttach_detachList, Bool.false_or, doubleAttach_append, hrun_newa,
      doubleAttach_attachList new ∅ hnew (by simp), Bool.false_or]
    rfl

/-- Names the C1 claim: for every replacement of the pane-scoped primitive
list — sourced from the chart context when the series pane index is 0 and
from the enclosing Pane context otherwise — the coordinator effectively
detaches exactly the previously attached list, effectively attaches exactly
the new list, leaves exactly the new list attached, and never issues two
attach calls for one primitive without a detach call of it in between
(assuming the new list holds no duplicate primitive object). -/
theorem panePrimitiveReplaceSpec {P π : Type} [DecidableEq P]
    (paneIdx : Nat) (chartOld paneOld chartNew paneNew : List P) (u : π)
    (hnew : (scopedPanePrimitives paneIdx chartNew paneNew).Nodup) :
    runAttached (scopedPanePrimitives paneIdx chartOld paneOld).toFinset
        (panePrimitiveReplace (scopedPanePrimitives paneIdx chartOld paneOld)
          (scopedPanePrimitives paneIdx chartNew paneNew) (some u))
      = (scopedPanePrimitives paneIdx chartNew paneNew).toFinset ∧
    effectiveDetaches (scopedPanePrimitives paneIdx chartOld paneOld).toFinset
        (panePrimitiveReplace (scopedPanePrimitives paneIdx chartOld paneOld)
          (scopedPanePrimitives paneIdx chartNew paneNew) (some u))
      = (scopedPanePrimitives paneIdx chartOld paneOld).toFinset ∧
    effectiveAttaches (scopedPanePrimitives paneIdx chartOld paneOld).toFinset
        (panePrimitiveReplace (scopedPanePrimitives paneIdx chartOld paneOld)
          (scopedPanePrimitives paneIdx chartNew paneNew) (some u))
      = (scopedPanePrimitives paneIdx chartNew paneNew).toFinset ∧
    doubleAttach (scopedPanePrimitives paneIdx chartOld paneOld).toFinset
        (panePrimitiveReplace (scopedPanePrimitives paneIdx chartOld paneOld)
          (scopedPanePrimitives paneIdx chartNew paneNew) (some u))
      = false :=
  panePrimitiveReplace_exact _ _ u hnew

/-- Witness of panePrimitiveReplaceSpec at a concrete replacement in a
non-default pane: pane index 2, old pane list [1, 2], new pane list [2, 3]. -/
theorem panePrimitiveReplaceSpec_witness :
    ([2, 3] : List Nat).Nodup ∧
    (runAttached (scopedPanePrimitives 2 [9] [1, 2]).toFinset
        (panePrimitiveReplace (scopedPanePrimitives 2 [9] [1, 2])
          (scopedPanePrimitives 2 [8] [2, 3]) (some ()))
      = (scopedPanePrimitives 2 [8] ([2, 3] : List Nat)).toFinset ∧
    effectiveDetaches (scopedPanePrimitives 2 [9] [1, 2]).toFinset
        (panePrimitiveReplace (scopedPanePrimitives 2 [9] [1, 2])
          (scopedPanePrimitives 2 [8] [2, 3]) (some ()))
      = (scopedPanePrimitives 2 [9] ([1, 2] : List Nat)).toFinset ∧
    effectiveAttaches (scopedPanePrimitives 2 [9] [1, 2]).toFinset
        (panePrimitiveReplace (scopedPanePrimitives 2 [9] [1, 2])
          (scopedPanePrimitives 2 [8] [2, 3]) (some ()))
      = (scopedPanePrimitives 2 [8] ([2, 3] : List Nat)).toFinset ∧
    doubleAttach (scopedPanePrimitives 2 [9] [1, 2]).toFinset
        (panePrimitiveReplace (scopedPanePrimitives 2 [9] [1, 2])
          (scopedPanePrimitives 2 [8] [2, 3]) (some ()))
      = false) :=
  ⟨by decide, panePrimitiveReplaceSpec 2 [9] [1, 2] [8] [2, 3] () (by decide)⟩

/-- Names the C3 claim: in every run of the pane-primitive effect — the first
activation included, since the run does not depend on any prior state — every
attach call of a primitive is preceded by detach calls covering the full
current list against the same pane, so a primitive is never attached a second
time without an intervening detach. -/
theorem panePrimitiveDetachBeforeAttach {P π : Type} (current : List P)
    (pane : Option π) (j : Nat) (p : P)
    (hj : (panePrimitiveEffectRun current pane).get? j = some (PrimEvent.attach p)) :
    p ∈ current ∧
      ∀ q ∈ current,
        PrimEvent.detach q ∈ (panePrimitiveEffectRun current pane).take j := by
  cases pane with
  | none =>
      exfalso
      have h0 : panePrimitiveEffectRun current (none : Option π)
          = [PrimEvent.attachedCb current] := rfl
      rw [h0] at hj
      cases j with
      | zero => exact PrimEvent.noConfusion (Option.some.inj hj)
      | succ n => exact Option.noConfusion hj
  | some x =>
      have htr : panePrimitiveEffectRun current (some x)
          = current.map PrimEvent.detach ++
              (current.map PrimEvent.attach ++ [PrimEvent.attachedCb current]) := by
        simp [panePrimitiveEffectRun, attachPanePrimitives, detachPanePrimitives]
      rw [htr] at hj ⊢
      rcases Nat.lt_or_ge j (current.map PrimEvent.detach).length with hlt | hge
      · exfalso
        rw [List.get?_append hlt] at hj
        have hmem := List.get?_mem hj
        rcases List.mem_map.mp hmem with ⟨q, _, hq⟩
        exact PrimEvent.noConfusion hq
      · constructor
        · have hmem := List.get?_mem hj
          rcases List.mem_append.mp hmem with hA | hB
          · rcases List.mem_map.mp hA with ⟨q, _, hq⟩
            exact absurd hq (fun hc => PrimEvent.noConfusion hc)
          · rcases List.mem_append.mp hB with hB1 | hB2
            · rcases List.mem_map.mp hB1 with ⟨q, hqmem, hq⟩
              injection hq with hqp
              exact hqp ▸ hqmem
            · exact absurd (List.mem_singleton.mp hB2)
                (fun hc => PrimEvent.noConfusion hc)
        · intro q hq
          rw [List.take_append_eq_append_take]
          refine List.mem_append.mpr (Or.inl ?_)
          rw [List.take_all_of_le hge]
          exact List.mem_map_of_mem _ hq

/-- Witness of panePrimitiveDetachBeforeAttach: in the run for list [1, 2]
against a present pane, the attach call at position 2 targets primitive 1,
which belongs to the list, and the preceding trace holds detach calls of the
whole list. -/
theorem panePrimitiveDetachBeforeAttach_witness :
    (panePrimitiveEffectRun ([1, 2] : List Nat) (some ())).get? 2
        = some (PrimEvent.attach 1) ∧
    (1 ∈ ([1, 2] : List Nat) ∧
      ∀ q ∈ ([1, 2] : List Nat),
        PrimEvent.detach q ∈
          (panePrimitiveEffectRun ([1, 2] : List Nat) (some ())).take 2) :=
  ⟨by decide, panePrimitiveDetachBeforeAttach [1, 2] (some ()) 2 1 (by decide)⟩

/-- Helper: automatic pane indices assigned from counter value k are the
consecutive values k, k+1, ..., whatever the per-declaration re-evaluation
counts are. -/
theorem assignPaneIndices_autoRun (reads : List Nat) :
    ∀ k : Nat,
      (assignPaneIndices (reads.map fun r => ((none : Option Nat), r)) ⟨k⟩).1
        = List.range' k reads.length := by
  induction reads with
  | nil =>
      intro k
      rfl
  | cons r rest ih =>
      intro k
      have h1 : (assignPaneIndices
            ((r :: rest).map fun r => ((none : Option Nat), r)) ⟨k⟩).1
          = k :: (assignPaneIndices
              (rest.map fun r => ((none : Option Nat), r)) ⟨k + 1⟩).1 := rfl
      rw [h1, ih (k + 1)]
      rfl

/-- Names the C2 claim: an explicit pane index (0 included) is returned
verbatim with the allocator state untouched; a sequence of N Pane
declarations without explicit index inside one chart receives exactly the
indices 1, 2, ..., N in declaration order regardless of the re-evaluation
counts of their reactive scopes; and from any reachable counter value (the
counter starts at 1 and only increments) auto-assignment never returns 0. -/
theorem paneIndexAllocatorSpec (i : Nat) (s : ChartPaneState) (reads : List Nat) :
    resolvePaneIdx (some i) s = (i, s) ∧
    (assignPaneIndices (reads.map fun r => ((none : Option Nat), r))
        initChartPaneState).1
      = List.range' 1 reads.length ∧
    (1 ≤ s.nextPaneIndex →
      (resolvePaneIdx none s).1 ≠ 0 ∧
      1 ≤ (resolvePaneIdx none s).2.nextPaneIndex ∧
      1 ≤ (resolvePaneIdx (some i) s).2.nextPaneIndex) := by
  refine ⟨rfl, assignPaneIndices_autoRun reads 1, ?_⟩
  intro h1
  refine ⟨?_, ?_, h1⟩
  · have h2 : (resolvePaneIdx none s).1 = s.nextPaneIndex := rfl
    omega
  · have h2 : (resolvePaneIdx none s).2.nextPaneIndex = s.nextPaneIndex + 1 := rfl
    omega

/-- Witness of paneIndexAllocatorSpec: explicit index 0 at counter value 5 is
returned verbatim, three auto-indexed declarations with re-evaluation counts
0, 3 and 7 receive the indices 1, 2, 3, and auto-assignment at counter 5
returns a nonzero index. -/
theorem paneIndexAllocatorSpec_witness :
    resolvePaneIdx (some 0) ⟨5⟩ = (0, ⟨5⟩) ∧
    (assignPaneIndices ([0, 3, 7].map fun r => ((none : Option Nat), r))
        initChartPaneState).1
      = List.range' 1 3 ∧
    ((resolvePaneIdx none ⟨5⟩).1 ≠ 0 ∧
      1 ≤ (resolvePaneIdx none ⟨5⟩).2.nextPaneIndex ∧
      1 ≤ (resolvePaneIdx (some 0) ⟨5⟩).2.nextPaneIndex) := by
  obtain ⟨h1, h2, h3⟩ := paneIndexAllocatorSpec 0 ⟨5⟩ [0, 3, 7]
  exact ⟨h1, h2, h3 (by decide)⟩

/-- Names the C5 claim: one run of the data effect sets the series dataset
first (position 0), invokes the data-set callback next (position 1), and only
then applies the marker set computed by the marker-derivation function from
the new data (position 2) and invokes the markers-set callback (position 3);
every marker application in the run carries the markers derived from the new
data, never stale ones. -/
theorem dataEffectOrderSpec {D M : Type} (markers : D → M) (d : D) :
    (dataEffectRun markers d).get? 0 = some (DataEvent.setData d) ∧
    (dataEffectRun markers d).get? 1 = some (DataEvent.onSetData d) ∧
    (dataEffectRun markers d).get? 2 = some (DataEvent.setMarkers (markers d)) ∧
    (dataEffectRun markers d).get? 3 = some (DataEvent.onSetMarkers (markers d)) ∧
    ∀ j m, (dataEffectRun markers d).get? j = some (DataEvent.setMarkers m) →
      j = 2 ∧ m = markers d := by
  refine ⟨rfl, rfl, rfl, rfl, ?_⟩
  intro j m hj
  cases j with
  | zero => simp [dataEffectRun] at hj
  | succ j1 =>
      cases j1 with
      | zero => simp [dataEffectRun] at hj
      | succ j2 =>
          cases j2 with
          | zero =>
              simp [dataEffectRun] at hj
              exact ⟨rfl, hj.symm⟩
          | succ j3 =>
              cases j3 with
              | zero => simp [dataEffectRun] at hj
              | succ j4 => simp [dataEffectRun] at hj

/-- Witness of dataEffectOrderSpec at the marker function n + 1 and dataset
5: the dataset is set at position 0 and the only marker application carries
the freshly derived value 6. -/
theorem dataEffectOrderSpec_witness :
    (dataEffectRun (fun n : Nat => n + 1) 5).get? 0 = some (DataEvent.setData 5) ∧
    ((2 : Nat) = 2 ∧ (6 : Nat) = (fun n : Nat => n + 1) 5) := by
  obtain ⟨h0, _, _, _, h5⟩ := dataEffectOrderSpec (fun n : Nat => n + 1) 5
  exact ⟨h0, h5 2 6 (by decide)⟩

/-- Names the C6 claim: with autoSize disabled, a run of the resize effect
calls resize with exactly the new width, new height and current force-repaint
flag and then the resize callback with the new width and height; with
autoSize enabled a run performs no resize call at all. -/
theorem resizeEffectSpec (w h : Nat) (force : Bool) :
    resizeEffectRun false w h force
      = [ResizeEvent.resize w h force, ResizeEvent.onResize w h] ∧
    resizeEffectRun true w h force = [] :=
  ⟨rfl, rfl⟩

/-- Names the C9 claim: when the resolved pane object is undefined (for
example the chart's pane list has no entry at the series' pane index), the
pane-primitive effect and its cleanup issue no attach or detach call — and
throw nothing, every embedded function being total — while still invoking the
attached respectively detached callback with the full primitive list. -/
theorem missingPaneNoOp {P π : Type} (panes : List π) (idx : Nat) (prims : List P)
    (hidx : panes.length ≤ idx) :
    seriesPaneLookup panes idx = none ∧
    panePrimitiveEffectRun prims (seriesPaneLookup panes idx)
      = [PrimEvent.attachedCb prims] ∧
    panePrimitiveEffectCleanup prims (seriesPaneLookup panes idx)
      = [PrimEvent.detachedCb prims] := by
  have hnone : seriesPaneLookup panes idx = none := List.get?_eq_none.mpr hidx
  rw [hnone]
  exact ⟨rfl, rfl, rfl⟩

/-- Witness of missingPaneNoOp: an empty pane list and pane index 0. -/
theorem missingPaneNoOp_witness :
    seriesPaneLookup ([] : List Unit) 0 = none ∧
    panePrimitiveEffectRun ([1, 2] : List Nat) (seriesPaneLookup ([] : List Unit) 0)
      = [PrimEvent.attachedCb [1, 2]] ∧
    panePrimitiveEffectCleanup ([1, 2] : List Nat) (seriesPaneLookup ([] : List Unit) 0)
      = [PrimEvent.detachedCb [1, 2]] :=
  missingPaneNoOp [] 0 [1, 2] (by decide)

/-- Names the C10 claim: a Pane declared with explicit index 0 resolves to
pane index 0, so series inside it select the chart context's primitive list
and chart-level callbacks; the Pane declaration's own primitives prop is
never consulted (the selected list is independent of it). -/
theorem defaultPaneScopeSpec {P : Type} (s : ChartPaneState)
    (chartPrimitives panePrimitivesA panePrimitivesB : List P) :
    (resolvePaneIdx (some 0) s).1 = 0 ∧
    scopedPanePrimitives (resolvePaneIdx (some 0) s).1 chartPrimitives panePrimitivesA
      = chartPrimitives ∧
    scopedCallbackSource (resolvePaneIdx (some 0) s).1 = CallbackSource.chartCb ∧
    scopedPanePrimitives (resolvePaneIdx (some 0) s).1 chartPrimitives panePrimitivesA
      = scopedPanePrimitives (resolvePaneIdx (some 0) s).1 chartPrimitives
          panePrimitivesB :=
  ⟨rfl, rfl, rfl, rfl⟩

/-- Refutes the C4 claim as stated: with handler 1 present at mount and the
handler prop changed to handler 2 afterwards, the code's lifetime trace never
subscribes handler 2 — the effect captured the mount-time value and has no
reactive dependency — whereas the claimed re-subscribe-on-change lifecycle
does. -/
theorem subscriptionResubscribeCounterexample :
    subscriptionLifetime EventKind.click (some (Sum.inl (1 : Nat)))
        [some (Sum.inl 2)]
      ≠ claimSubscriptionLifetime EventKind.click (some (Sum.inl 1))
          [some (Sum.inl 2)] ∧
    SubEvent.subscribeH EventKind.click (2 : Nat)
      ∉ subscriptionLifetime EventKind.click (some (Sum.inl 1)) [some (Sum.inl 2)] ∧
    SubEvent.subscribeH EventKind.click (2 : Nat)
      ∈ claimSubscriptionLifetime EventKind.click (some (Sum.inl 1))
          [some (Sum.inl 2)] := by
  refine ⟨?_, ?_, ?_⟩ <;> decide

/-- Names the amended C4 claim: for every chart event kind the subscription
effect accepts a single handler or a list of handlers, subscribes every
handler in the set captured at chart mount, and unsubscribes exactly that set
at teardown; the handler value is captured when the effect is created, so
later changes of the handler set cause no re-subscription (the lifetime trace
is independent of them). -/
theorem subscriptionLifetimeSpec {H : Type} (k : EventKind) (v : HandlerInput H)
    (laterValues : List (HandlerInput H)) :
    subscriptionLifetime k v laterValues
      = (handlerSet v).map (SubEvent.subscribeH k)
        ++ (handlerSet v).map (SubEvent.unsubscribeH k) ∧
    subscriptionLifetime k v laterValues = subscriptionLifetime k v [] := by
  refine ⟨?_, rfl⟩
  rcases v with _ | (h | hs) <;> rfl

/-- Refutes the C7 claim as stated: the crosshair event with point (10, 10)
and axis value 0 on an 800 x 400 surface has a defined point, defined axis
value and in-bounds coordinates — the claim's hide condition is false, so the
claim mandates a transition to Visible with on-show — yet the code hides the
tooltip and invokes on-hide, because its guard tests JavaScript truthiness of
the axis value and 0 is falsy. -/
theorem tooltipZeroTimeCounterexample :
    claimHideCondition (⟨some ⟨10, 10⟩, some 0, ()⟩ : CrosshairParam Unit) 800 400
        = false ∧
    (onCrosshairMove () (⟨some ⟨10, 10⟩, some 0, ()⟩ : CrosshairParam Unit) 800 400
        (initTooltipState () ())).1.visible = false ∧
    (onCrosshairMove () (⟨some ⟨10, 10⟩, some 0, ()⟩ : CrosshairParam Unit) 800 400
        (initTooltipState () ())).2 = [TooltipCb.onHide] := by
  refine ⟨?_, ?_, ?_⟩ <;> decide

/-- Names the amended C7 claim: a crosshair event whose point is undefined,
whose axis value is JavaScript-falsy (undefined or 0), or whose point lies
outside [0, width] x [0, height] transitions the tooltip to Hidden, invokes
on-hide exactly once even when already Hidden, and leaves the tooltip
snapshot untouched; any other event transitions to Visible, replaces the
snapshot — chart handle, per-series data, cursor point, axis value — all at
once, and invokes on-show. -/
theorem tooltipCrosshairMoveSpec {C S : Type} (chart : C) (param : CrosshairParam S)
    (w h : Int) (st : TooltipOverlayState C S) :
    (outOfBounds param w h = true →
      onCrosshairMove chart param w h st
        = ({ st with visible := false }, [TooltipCb.onHide])) ∧
    (outOfBounds param w h = false →
      onCrosshairMove chart param w h st
        = (⟨true, ⟨chart, param.seriesData, param.point, param.time⟩⟩,
            [TooltipCb.onShow])) ∧
    (outOfBounds param w h = true ↔
      param.point = none ∨ param.time = none ∨ param.time = some 0 ∨
        ∃ pt, param.point = some pt ∧
          (pt.x < 0 ∨ pt.y < 0 ∨ pt.x > w ∨ pt.y > h)) := by
  refine ⟨?_, ?_, ?_⟩
  · intro hb
    simp [onCrosshairMove, hb]
  · intro hb
    simp [onCrosshairMove, hb]
  · rcases param with ⟨pt, t, sd⟩
    cases pt with
    | none => simp [outOfBounds, timeFalsy]
    | some q =>
        cases t with
        | none => simp [outOfBounds, timeFalsy]
        | some tv =>
            simp only [outOfBounds, timeFalsy, Option.isNone_some, Bool.false_or,
              Bool.or_eq_true, beq_iff_eq, decide_eq_true_eq, Option.some.injEq,
              reduceCtorEq, false_or, Option.some.injEq]
            constructor
            · rintro (htv | hc)
              · exact Or.inl htv
              · exact Or.inr ⟨q, rfl, by tauto⟩
            · rintro (htv | ⟨pt2, hpt2, hc⟩)
              · exact Or.inl htv
              · cases hpt2
                exact Or.inr (by tauto)

/-- Witness of tooltipCrosshairMoveSpec at the claim's own example, the point
(-1, 0) on an 800 x 400 surface with the tooltip already hidden: the event is
out of bounds, the state stays hidden with the snapshot untouched, and
on-hide is invoked exactly once. -/
theorem tooltipCrosshairMoveSpec_witness :
    outOfBounds (⟨some ⟨-1, 0⟩, some 5, ()⟩ : CrosshairParam Unit) 800 400 = true ∧
    onCrosshairMove () (⟨some ⟨-1, 0⟩, some 5, ()⟩ : CrosshairParam Unit) 800 400
        (initTooltipState () ())
      = ({ initTooltipState () () with visible := false }, [TooltipCb.onHide]) :=
  ⟨by decide,
    (tooltipCrosshairMoveSpec () (⟨some ⟨-1, 0⟩, some 5, ()⟩ : CrosshairParam Unit)
        800 400 (initTooltipState () ())).1 (by decide)⟩

/-- Names the C8 claim: activating a Pane, Series, CustomSeries or Tooltip
with no enclosing chart of its family fails immediately with the synchronous
error of that family's hook, the library never catches it, and the message
determines the family uniquely (it names the missing parent chart). -/
theorem noParentChartFailFast {Ctx A : Type} (f : ChartFamily) (comp : ChildComponent)
    (body : ChildComponent → Ctx → A) :
    activateChild f comp (none : Option Ctx) body
      = Except.error (noParentChartMsg f) ∧
    noParentChartMsg f
      = "[solid-lightweight-charts] No parent " ++ familyName f
        ++ " component found!" ∧
    ∀ g, noParentChartMsg f = noParentChartMsg g → f = g := by
  refine ⟨rfl, rfl, ?_⟩
  intro g hg
  cases f <;> cases g <;> first | rfl | exact absurd hg (by decide)

/-- Witness of noParentChartFailFast: a Pane under the TimeChart family with
no context errors with the TimeChart message, and the message-injectivity
conjunct applies at the TimeChart family itself. -/
theorem noParentChartFailFast_witness :
    activateChild ChartFamily.timeChart ChildComponent.pane (none : Option Unit)
        (fun _ c => c)
      = Except.error (noParentChartMsg ChartFamily.timeChart) ∧
    ChartFamily.timeChart = ChartFamily.timeChart := by
  obtain ⟨h1, _, h3⟩ :=
    noParentChartFailFast ChartFamily.timeChart ChildComponent.pane
      (fun (_ : ChildComponent) (c : Unit) => c)
  exact ⟨h1, h3 ChartFamily.timeChart rfl⟩

end SolidLWC
